import Mathlib

/-!
Verification development for the amazon-seller-content repository.

The repository ships a Postgres schema (supabase/migrations/001_init.sql),
a Next.js dashboard (status badge, format icon, jobs page, API client
types) and deployment glue.  The job pipeline itself (orchestrator,
filter, deduplicator, clusterer, idea generator) is described by the
design document; the definitions in the Pipeline section below are
modelled from that document, while the Frontend and Sql sections are
shallow embeddings of source files present in the repository.
-/

namespace SellerContent

/-! ## Frontend components (status-badge and format-icon source files) -/

/-- Result of rendering StatusBadge: the visible label and the css class
of the span element. -/
structure BadgeRender where
  label : String
  className : String
deriving DecidableEq, Repr

/-- Property names every plain JavaScript object literal inherits from
Object.prototype.  Reading one of these keys on the config records finds
a truthy inherited member (a function, or the prototype object for the
dunder proto accessor), so the or-fallback in the components is not
taken. -/
def objectPrototypeKeys : List String :=
  ["constructor", "hasOwnProperty", "isPrototypeOf",
   "propertyIsEnumerable", "toLocaleString", "toString", "valueOf",
   "__proto__", "__defineGetter__", "__defineSetter__",
   "__lookupGetter__", "__lookupSetter__"]

/-- Outcome of a JavaScript property read on an object literal: an own
property of the literal, a truthy member inherited from
Object.prototype, or undefined. -/
inductive JsProp (α : Type) where
  | own (a : α)
  | inherited
  | undef
deriving DecidableEq

/-- JavaScript property lookup on an object literal: own properties
first, then the prototype chain of Object.prototype, else undefined. -/
def jsGetProp {α : Type} (obj : List (String × α)) (key : String) :
    JsProp α :=
  match obj.lookup key with
  | some a => JsProp.own a
  | none =>
    if key ∈ objectPrototypeKeys then JsProp.inherited else JsProp.undef

/-- What a component renders after reading the fields of the looked-up
config value: real fields, or undefined fields when the config is an
inherited Object.prototype member that has no such fields. -/
inductive Rendered (α : Type) where
  | fields (a : α)
  | undefinedFields
deriving DecidableEq

/-- The STATUS_CONFIG record from the status-badge component, embedded as
an association list keyed by the status string. -/
def STATUS_CONFIG : List (String × BadgeRender) :=
  [("pending", ⟨"等待中", "badge-yellow"⟩),
   ("running", ⟨"运行中", "badge-blue"⟩),
   ("completed", ⟨"已完成", "badge-green"⟩),
   ("failed", ⟨"失败", "badge-red"⟩)]

/-- StatusBadge component: reads STATUS_CONFIG at the status key with
JavaScript property semantics.  An own config renders its label and
class; a falsy miss takes the or-fallback and renders the raw status
with the gray badge class; a truthy inherited Object.prototype member
bypasses the fallback and its label and className fields are
undefined. -/
def StatusBadge (status : String) : Rendered BadgeRender :=
  match jsGetProp STATUS_CONFIG status with
  | JsProp.own config => Rendered.fields config
  | JsProp.inherited => Rendered.undefinedFields
  | JsProp.undef => Rendered.fields ⟨status, "badge-gray"⟩

/-- Result of rendering FormatIcon: icon, label and the color classes. -/
structure FormatRender where
  icon : String
  label : String
  color : String
deriving DecidableEq, Repr

/-- The FORMAT_MAP record from the format-icon component. -/
def FORMAT_MAP : List (String × FormatRender) :=
  [("article", ⟨"📝", "图文", "text-blue-600 bg-blue-50"⟩),
   ("short_video", ⟨"🎬", "短视频", "text-pink-600 bg-pink-50"⟩),
   ("long_video", ⟨"🎥", "长视频", "text-purple-600 bg-purple-50"⟩),
   ("image_prompt", ⟨"🖼️", "图片", "text-orange-600 bg-orange-50"⟩),
   ("social_post", ⟨"📱", "社媒", "text-green-600 bg-green-50"⟩)]

/-- FormatIcon component: reads FORMAT_MAP at the format key with
JavaScript property semantics.  An own config renders it; a falsy miss
takes the or-fallback (default icon, raw format text, gray colors); a
truthy inherited Object.prototype member bypasses the fallback and its
fields are undefined. -/
def FormatIcon (format : String) : Rendered FormatRender :=
  match jsGetProp FORMAT_MAP format with
  | JsProp.own config => Rendered.fields config
  | JsProp.inherited => Rendered.undefinedFields
  | JsProp.undef => Rendered.fields ⟨"📄", format, "text-gray-600 bg-gray-50"⟩

/-! ## Sql: the match_contents similarity-search function -/

/-- A row of the contents table, restricted to the columns that
match_contents reads.  The embedding column is nullable; distances are
modelled over rational numbers. -/
structure ContentRow where
  id : Nat
  job_id : Nat
  title : String
  url : String
  source : String
  engagement_score : ℚ
  embedding : Option (List ℚ)
deriving DecidableEq

/-- A row of the result table returned by match_contents. -/
structure MatchRow where
  id : Nat
  title : String
  url : String
  source : String
  engagement_score : ℚ
  similarity : ℚ
deriving DecidableEq

/-- Comparison used by the ORDER BY similarity DESC clause. -/
def simDesc (a b : MatchRow) : Prop := b.similarity ≤ a.similarity

instance : DecidableRel simDesc := fun a b =>
  inferInstanceAs (Decidable (b.similarity ≤ a.similarity))

instance : IsTotal MatchRow simDesc := ⟨fun a b => le_total b.similarity a.similarity⟩

instance : IsTrans MatchRow simDesc := ⟨fun _ _ _ h h2 => le_trans h2 h⟩

/-- The match_contents function of the initial migration: keep rows whose
embedding is non-null, whose similarity (one minus the cosine distance to
the query embedding) reaches the threshold and which belong to the
filtered job when one is given, order by similarity descending, and limit
to match_count rows.  The cosine-distance operator is passed in as the
dist argument. -/
def match_contents (dist : List ℚ → List ℚ → ℚ) (rows : List ContentRow)
    (query_embedding : List ℚ) (match_threshold : ℚ) (match_count : Nat)
    (filter_job_id : Option Nat) : List MatchRow :=
  let eligible : List MatchRow := rows.filterMap fun c =>
    match c.embedding with
    | none => none
    | some e =>
      if match_threshold ≤ 1 - dist e query_embedding ∧
          (filter_job_id = none ∨ filter_job_id = some c.job_id) then
        some ⟨c.id, c.title, c.url, c.source, c.engagement_score,
              1 - dist e query_embedding⟩
      else none
  (eligible.insertionSort simDesc).take match_count

/-! ## Pipeline model

Modelled from the spec: the FastAPI backend that implements the job
pipeline (JobOrchestrator, Filter, Deduplicator, Clusterer,
IdeaGenerator) is not among the shipped source files; only its schema,
its API client types and its dashboard callers are.  The definitions
below follow the design document (sections 4.1 to 4.6, 6 and 7) and use
the column names of the scrape_jobs, topic_clusters and content_ideas
tables. -/

/-- A raw candidate item as produced by a SourceConnector (spec 4.1),
with the columns of the contents table it is persisted into. -/
structure RawItem where
  source : String
  title : String
  body : String
  url : String
  views : Nat
  likes : Nat
  comments_count : Nat
deriving DecidableEq

/-- A content item after the Filter stage: the raw fields plus the
keyword_hits count and the derived engagement_score (spec 4.2). -/
structure Item where
  source : String
  title : String
  body : String
  url : String
  keyword_hits : Nat
  engagement_score : ℚ
deriving DecidableEq

/-- A topic cluster row as persisted by the Clusterer (spec 4.4),
restricted to the fields the claims mention. -/
structure TopicCluster where
  cluster_index : Nat
  label : String
  size : Nat
  total_engagement : ℚ
deriving DecidableEq

/-- A generated content idea for one cluster and format pair (spec 4.5). -/
structure ContentIdea where
  format_type : String
  topic_label : String
  generated_content : String
deriving DecidableEq

/-- The persisted scrape_jobs record: status as its stable wire string,
the five counters, the error message, plus the topic clusters persisted
for the job. -/
structure Job where
  status : String
  total_raw : Nat
  total_filtered : Nat
  total_deduped : Nat
  total_clusters : Nat
  total_ideas : Nat
  error_message : String
  clusters : List TopicCluster
deriving DecidableEq

/-- Modelled from the spec: counts the occurrences of a pattern inside a
character list (used for case-insensitive keyword occurrence counting in
the Filter stage, spec 4.2). -/
def countOccur (pat : List Char) (s : List Char) : Nat :=
  match s with
  | [] => 0
  | _ :: rest =>
    (if pat ≠ [] ∧ pat.isPrefixOf s then 1 else 0) + countOccur pat rest

/-- Modelled from the spec: keyword_hits is the count of case-insensitive
keyword occurrences across title plus body (spec 4.2). -/
def keywordHits (keywords : List String) (text : String) : Nat :=
  (keywords.map fun k => countOccur k.toLower.data text.toLower.data).sum

/-- Modelled from the spec: the engagement score computed by the Filter
stage as the weighted sum likes + 2 * comments + views / 100 (spec 4.2). -/
def engagementScore (r : RawItem) : ℚ :=
  (r.likes : ℚ) * 1 + (r.comments_count : ℚ) * 2 + (r.views : ℚ) / 100

/-- Modelled from the spec: turn a raw item into a filtered item carrying
keyword_hits and engagement_score (spec 4.2). -/
def toItem (keywords : List String) (r : RawItem) : Item :=
  { source := r.source, title := r.title, body := r.body, url := r.url,
    keyword_hits := keywordHits keywords (r.title ++ " " ++ r.body),
    engagement_score := engagementScore r }

/-- Modelled from the spec: the Filter stage keeps an item when
keyword_hits is at least one or the source satisfies the curated-feed
passthrough rule (spec 4.2); rejected items are dropped. -/
def filterStage (passFn : String → Bool) (keywords : List String)
    (raws : List RawItem) : List Item :=
  (raws.map (toItem keywords)).filter fun it =>
    decide (1 ≤ it.keyword_hits) || passFn it.source

/-- Modelled from the spec: body normalization for the exact dedup tier,
lowercase then collapse whitespace runs (spec 4.3 tier 1). -/
def normalizeBody (s : String) : String :=
  String.intercalate " " ((s.toLower.split Char.isWhitespace).filter (fun t => t ≠ ""))

/-- Modelled from the spec: walk the items in order and mark each item
whose normalized body hash was already seen in the same job with
is_duplicate = true (spec 4.3 tier 1).  The boolean of each pair is the
persisted is_duplicate flag. -/
def exactMark (hashFn : String → Nat) : List Item → List Nat → List (Item × Bool)
  | [], _ => []
  | x :: xs, seen =>
    let h := hashFn (normalizeBody x.body)
    if h ∈ seen then (x, true) :: exactMark hashFn xs seen
    else (x, false) :: exactMark hashFn xs (h :: seen)

/-- Modelled from the spec: the items surviving dedup tier 1, namely the
items not marked is_duplicate; only these reach downstream stages. -/
def exactSurvivors (hashFn : String → Nat) (items : List Item) : List Item :=
  ((exactMark hashFn items []).filter fun p => !p.2).map Prod.fst

/-- Modelled from the spec: dedup tier 2 keeps an item unless its maximum
embedding cosine similarity against the items already kept exceeds the
threshold; the kept set grows first-seen first (spec 4.3 tier 2). -/
def nearDedup (sim : Item → Item → ℚ) (thr : ℚ) :
    List Item → List Item → List Item
  | [], _ => []
  | x :: xs, kept =>
    if kept.any fun k => decide (thr < sim k x) then
      nearDedup sim thr xs kept
    else x :: nearDedup sim thr xs (x :: kept)

/-- Configuration and external collaborators of one pipeline run: the
content-hash function, the embedding similarity oracle with its
threshold, the density-based grouping oracle of the Clusterer, the
label-summarization collaborator, the generative-model call (none on
permanent failure), the curated-feed passthrough rule and the minimum
cluster size. -/
structure PipelineEnv where
  hashFn : String → Nat
  sim : Item → Item → ℚ
  nearThreshold : ℚ
  groupFn : List Item → List (List Item)
  labelFn : List Item → String
  gen : TopicCluster → String → Option String
  passFn : String → Bool
  minClusterSize : Nat

/-- Modelled from the spec: both dedup tiers in order; the result is what
total_deduped counts (spec 4.3). -/
def dedupStage (env : PipelineEnv) (items : List Item) : List Item :=
  nearDedup env.sim env.nearThreshold (exactSurvivors env.hashFn items) []

/-- Modelled from the spec: build the persisted cluster record of one
group of member items, before index assignment (spec 4.4). -/
def mkCluster (labelFn : List Item → String) (g : List Item) : TopicCluster :=
  { cluster_index := 0, label := labelFn g, size := g.length,
    total_engagement := (g.map Item.engagement_score).sum }

/-- Comparison used to order clusters by descending total_engagement. -/
def engDesc (a b : TopicCluster) : Prop := b.total_engagement ≤ a.total_engagement

instance : DecidableRel engDesc := fun a b =>
  inferInstanceAs (Decidable (b.total_engagement ≤ a.total_engagement))

instance : IsTotal TopicCluster engDesc :=
  ⟨fun a b => le_total b.total_engagement a.total_engagement⟩

instance : IsTrans TopicCluster engDesc := ⟨fun _ _ _ h h2 => le_trans h2 h⟩

/-- Modelled from the spec: assign cluster_index zero-based along the
list (cluster 0 first). -/
def assignIdx : Nat → List TopicCluster → List TopicCluster
  | _, [] => []
  | i, c :: cs => { c with cluster_index := i } :: assignIdx (i + 1) cs

/-- Modelled from the spec: the size-surviving clusters of the grouping,
ordered by descending total_engagement before the max_topics cap (spec
4.4 and section 6 job creation input). -/
def sortedClusters (env : PipelineEnv) (groups : List (List Item)) :
    List TopicCluster :=
  ((groups.filter fun g => decide (env.minClusterSize ≤ g.length)).map
      (mkCluster env.labelFn)).insertionSort engDesc

/-- Modelled from the spec: the Clusterer output persisted for the job:
clusters below the minimum size are treated as noise, the survivors are
ordered by descending total_engagement, capped at max_topics, and
cluster_index is assigned in that order (spec 4.4, section 6). -/
def clusterStage (env : PipelineEnv) (maxTopics : Nat)
    (groups : List (List Item)) : List TopicCluster :=
  assignIdx 0 ((sortedClusters env groups).take maxTopics)

/-- Modelled from the spec: the clusters dropped by the max_topics cap,
before idea generation (section 6). -/
def droppedClusters (env : PipelineEnv) (maxTopics : Nat)
    (groups : List (List Item)) : List TopicCluster :=
  (sortedClusters env groups).drop maxTopics

/-- Modelled from the spec: the cluster times format attempt list of the
IdeaGenerator, one attempt per retained cluster and requested format
(spec 4.5, section 6). -/
def ideaAttempts (clusters : List TopicCluster) (formats : List String) :
    List (TopicCluster × String) :=
  (clusters.map fun c => formats.map fun f => (c, f)).flatten

/-- Modelled from the spec: run the generator on every attempt; a
successful call persists one ContentIdea, a permanent failure yields an
error note instead and the pair is skipped (spec 4.5). -/
def ideaStage (gen : TopicCluster → String → Option String)
    (clusters : List TopicCluster) (formats : List String) :
    List ContentIdea × List String :=
  let results := (ideaAttempts clusters formats).map fun p => (p, gen p.1 p.2)
  (results.filterMap fun r =>
     (r.2).map fun txt =>
       { format_type := r.1.2, topic_label := r.1.1.label,
         generated_content := txt },
   results.filterMap fun r =>
     match r.2 with
     | none => some ("generation failed: " ++ r.1.1.label ++ " " ++ r.1.2)
     | some _ => none)

/-- The freshly created job record: status pending, all counters zero
(spec 4.6 and the scrape_jobs column defaults). -/
def initialJob : Job :=
  { status := "pending", total_raw := 0, total_filtered := 0,
    total_deduped := 0, total_clusters := 0, total_ideas := 0,
    error_message := "", clusters := [] }

/-- Modelled from the spec: one full run of the JobOrchestrator, returned
as the sequence of persisted job snapshots an external poller can
observe: creation, the transition to running, one snapshot after each
stage persists its counter, and the terminal snapshot (spec 4.6).  The
connector results carry none for a failed connector; embedOk is false
when the embedding service is completely unreachable (fatal to the dedup
and cluster stages, spec section 7). -/
def runJob (env : PipelineEnv) (keywords : List String)
    (formats : List String) (maxTopics : Nat)
    (conn : List (Option (List RawItem))) (embedOk : Bool) : List Job :=
  let j0 := initialJob
  let j1 := { j0 with status := "running" }
  if conn.all fun r => r.isNone then
    let jf := { j1 with
      status := "failed"
      error_message := "all connectors failed: zero items ingested" }
    [j0, j1, jf]
  else
    let raw := (conn.filterMap id).flatten
    let j2 := { j1 with total_raw := raw.length }
    let filtered := filterStage env.passFn keywords raw
    let j3 := { j2 with total_filtered := filtered.length }
    if embedOk then
      let deduped := dedupStage env filtered
      let j4 := { j3 with total_deduped := deduped.length }
      let clusters := clusterStage env maxTopics (env.groupFn deduped)
      let j5 := { j4 with
        total_clusters := clusters.length
        clusters := clusters }
      let stage := ideaStage env.gen clusters formats
      let j6 := { j5 with
        status := "completed"
        total_ideas := stage.1.length
        error_message := String.intercalate "; " stage.2 }
      [j0, j1, j2, j3, j4, j5, j6]
    else
      let jf := { j3 with
        status := "failed"
        error_message := "embedding service unreachable" }
      [j0, j1, j2, j3, jf]

/-- Pointwise order on the five persisted counters of two job
snapshots: every counter of the first is at most the counter of the
second. -/
def JobLe (a b : Job) : Prop :=
  a.total_raw ≤ b.total_raw ∧
  a.total_filtered ≤ b.total_filtered ∧
  a.total_deduped ≤ b.total_deduped ∧
  a.total_clusters ≤ b.total_clusters ∧
  a.total_ideas ≤ b.total_ideas

/-- A concrete pipeline environment used to instantiate the theorems on
closed inputs: the grouping oracle puts every item into one cluster and
the generator always succeeds. -/
def testEnv : PipelineEnv :=
  { hashFn := fun s => s.length
    sim := fun _ _ => 0
    nearThreshold := 92 / 100
    groupFn := fun xs => [xs]
    labelFn := fun _ => "topic"
    gen := fun c f => some ("idea for " ++ c.label ++ " as " ++ f)
    passFn := fun _ => false
    minClusterSize := 3 }

/-- A concrete item with engagement score one. -/
def itemA : Item := ⟨"s", "t", "b", "u", 1, 1⟩

/-- A concrete item with engagement score two. -/
def itemB : Item := ⟨"s", "t", "b", "u", 1, 2⟩

/-! ## Theorems about the frontend components -/

/-- C10 counterexample: the unknown status constructor and the unknown
format toString are property names inherited from Object.prototype, so
the components find a truthy inherited member, skip the or-fallback,
and do not render the raw text with the gray or default fallback
style. -/
theorem statusBadge_formatIcon_prototype_counterexample :
    "constructor" ∉
        (["pending", "running", "completed", "failed"] : List String) ∧
    StatusBadge "constructor"
      ≠ Rendered.fields ⟨"constructor", "badge-gray"⟩ ∧
    "toString" ∉
        (["article", "short_video", "long_video", "image_prompt",
          "social_post"] : List String) ∧
    FormatIcon "toString"
      ≠ Rendered.fields ⟨"📄", "toString", "text-gray-600 bg-gray-50"⟩ := by
  refine ⟨by decide, by decide, by decide, by decide⟩

/-- C10 amended: StatusBadge and FormatIcon are total over arbitrary
strings; on any status outside the four known states that is not an
Object.prototype property name StatusBadge renders the raw status text
with the gray fallback class, and on any format outside the five known
formats that is not an Object.prototype property name FormatIcon
renders the raw format text with the default fallback style. -/
theorem statusBadge_formatIcon_fallback :
    (∀ s : String,
       s ∉ (["pending", "running", "completed", "failed"] : List String) →
       s ∉ objectPrototypeKeys →
       StatusBadge s = Rendered.fields ⟨s, "badge-gray"⟩) ∧
    (∀ f : String,
       f ∉ (["article", "short_video", "long_video", "image_prompt",
             "social_post"] : List String) →
       f ∉ objectPrototypeKeys →
       FormatIcon f = Rendered.fields ⟨"📄", f, "text-gray-600 bg-gray-50"⟩) := by
  constructor
  · intro s hs hproto
    simp only [List.mem_cons, List.not_mem_nil, or_false, not_or] at hs
    obtain ⟨h1, h2, h3, h4⟩ := hs
    have e1 : (s == "pending") = false := beq_eq_false_iff_ne.mpr h1
    have e2 : (s == "running") = false := beq_eq_false_iff_ne.mpr h2
    have e3 : (s == "completed") = false := beq_eq_false_iff_ne.mpr h3
    have e4 : (s == "failed") = false := beq_eq_false_iff_ne.mpr h4
    simp [StatusBadge, jsGetProp, STATUS_CONFIG, List.lookup,
      e1, e2, e3, e4, hproto]
  · intro f hf hproto
    simp only [List.mem_cons, List.not_mem_nil, or_false, not_or] at hf
    obtain ⟨h1, h2, h3, h4, h5⟩ := hf
    have e1 : (f == "article") = false := beq_eq_false_iff_ne.mpr h1
    have e2 : (f == "short_video") = false := beq_eq_false_iff_ne.mpr h2
    have e3 : (f == "long_video") = false := beq_eq_false_iff_ne.mpr h3
    have e4 : (f == "image_prompt") = false := beq_eq_false_iff_ne.mpr h4
    have e5 : (f == "social_post") = false := beq_eq_false_iff_ne.mpr h5
    simp [FormatIcon, jsGetProp, FORMAT_MAP, List.lookup,
      e1, e2, e3, e4, e5, hproto]

/-- Witness for C10 at two concrete unknown inputs that are not
Object.prototype property names. -/
theorem statusBadge_formatIcon_fallback_witness :
    StatusBadge "cancelled" = Rendered.fields ⟨"cancelled", "badge-gray"⟩ ∧
    FormatIcon "podcast"
      = Rendered.fields ⟨"📄", "podcast", "text-gray-600 bg-gray-50"⟩ :=
  ⟨statusBadge_formatIcon_fallback.1 "cancelled" (by decide) (by decide),
   statusBadge_formatIcon_fallback.2 "podcast" (by decide) (by decide)⟩

/-! ## Theorems about match_contents -/

/-- C9: every row returned by match_contents comes from a contents row
with a non-null embedding, has similarity at least match_threshold, and
belongs to the filtered job when filter_job_id is non-null; the result is
ordered by similarity descending and holds at most match_count rows. -/
theorem match_contents_spec (dist : List ℚ → List ℚ → ℚ)
    (rows : List ContentRow) (q : List ℚ) (thr : ℚ) (cnt : Nat)
    (fj : Option Nat) :
    (match_contents dist rows q thr cnt fj).length ≤ cnt ∧
    List.Sorted simDesc (match_contents dist rows q thr cnt fj) ∧
    ∀ r ∈ match_contents dist rows q thr cnt fj,
      thr ≤ r.similarity ∧
      ∃ c ∈ rows, ∃ e, c.embedding = some e ∧
        r = ⟨c.id, c.title, c.url, c.source, c.engagement_score,
             1 - dist e q⟩ ∧
        ∀ jj, fj = some jj → c.job_id = jj := by
  refine ⟨?_, ?_, ?_⟩
  · exact List.length_take_le cnt
      (List.insertionSort simDesc (rows.filterMap _))
  · exact (List.sorted_insertionSort simDesc _).sublist
      (List.take_sublist _ _)
  · intro r hr
    simp only [match_contents] at hr
    have hr1 := List.mem_of_mem_take hr
    rw [List.mem_insertionSort, List.mem_filterMap] at hr1
    obtain ⟨c, hc, hfc⟩ := hr1
    cases he : c.embedding with
    | none => rw [he] at hfc; simp at hfc
    | some e =>
      rw [he] at hfc
      simp only [] at hfc
      split_ifs at hfc with hcond
      · obtain ⟨hthr, hjob⟩ := hcond
        have hre : r = ⟨c.id, c.title, c.url, c.source, c.engagement_score,
            1 - dist e q⟩ := (Option.some.injEq _ _).mp hfc |>.symm
        refine ⟨?_, c, hc, e, he, hre, ?_⟩
        · rw [hre]; exact hthr
        · intro jj hjj
          rcases hjob with h0 | h0
          · rw [hjj] at h0; cases h0
          · rw [hjj] at h0
            exact (Option.some.injEq _ _).mp h0.symm

/-- Witness for C9 at a concrete query over one eligible row. -/
theorem match_contents_spec_witness :
    (0 : ℚ) ≤ (⟨1, "t", "u", "s", 0, 1⟩ : MatchRow).similarity :=
  ((match_contents_spec (fun _ _ => 0)
      [⟨1, 7, "t", "u", "s", 0, some [1]⟩] [1] 0 3 (some 7)).2.2
    ⟨1, "t", "u", "s", 0, 1⟩
    (by simp [match_contents, List.insertionSort])).1

/-! ## Pipeline stage lemmas -/

/-- The Filter stage never produces more items than it was given. -/
theorem filterStage_length_le (passFn : String → Bool) (kw : List String)
    (raws : List RawItem) :
    (filterStage passFn kw raws).length ≤ raws.length :=
  le_trans (List.length_filter_le _ _) (le_of_eq (List.length_map _ _))

/-- The near-duplicate tier only removes items: its output is a sublist
of its input. -/
theorem nearDedup_sublist (sim : Item → Item → ℚ) (thr : ℚ) :
    ∀ (xs kept : List Item), (nearDedup sim thr xs kept).Sublist xs := by
  intro xs
  induction xs with
  | nil => intro kept; simp [nearDedup]
  | cons x xs ih =>
    intro kept
    simp only [nearDedup]
    split
    · exact (ih kept).trans (List.sublist_cons_self x xs)
    · exact (ih (x :: kept)).cons₂ x

/-- Dedup tier 1 marks every input item exactly once. -/
theorem exactMark_length (hashFn : String → Nat) :
    ∀ (xs : List Item) (seen : List Nat),
      (exactMark hashFn xs seen).length = xs.length := by
  intro xs
  induction xs with
  | nil => intro seen; simp [exactMark]
  | cons x xs ih =>
    intro seen
    simp only [exactMark]
    split <;> simp [ih]

/-- Splitting a count by a boolean predicate. -/
theorem length_eq_countP_add_countP_not {α : Type} (p : α → Bool)
    (l : List α) : l.length = l.countP p + l.countP (fun a => !p a) := by
  induction l with
  | nil => simp
  | cons x xs ih =>
    by_cases hx : p x <;> simp [List.countP_cons, hx, ih] <;> omega

/-- Among the items kept by dedup tier 1, at most one carries a given
normalized-body hash, and none at all when the hash was already seen. -/
theorem exactMark_survivors_countP_le (hashFn : String → Nat) (h : Nat) :
    ∀ (xs : List Item) (seen : List Nat),
      (((exactMark hashFn xs seen).filter fun p => !p.2).map
          Prod.fst).countP (fun it => hashFn (normalizeBody it.body) == h)
        ≤ if h ∈ seen then 0 else 1 := by
  intro xs
  induction xs with
  | nil => intro seen; simp [exactMark]
  | cons x xs ih =>
    intro seen
    simp only [exactMark]
    by_cases hx : hashFn (normalizeBody x.body) ∈ seen
    · rw [if_pos hx]
      simpa using ih seen
    · rw [if_neg hx]
      have hrec := ih (hashFn (normalizeBody x.body) :: seen)
      by_cases hxh : hashFn (normalizeBody x.body) = h
      · rw [hxh] at hrec hx ⊢
        rw [if_pos (List.mem_cons_self _ _)] at hrec
        rw [if_neg hx]
        have hbe : (hashFn (normalizeBody x.body) == h) = true :=
          beq_iff_eq.mpr hxh
        simp only [List.filter_cons, Bool.not_false, List.map_cons,
          List.countP_cons, hbe, if_true]
        omega
      · have hmem : h ∈ hashFn (normalizeBody x.body) :: seen ↔ h ∈ seen := by
          rw [List.mem_cons]
          exact or_iff_right fun he => hxh he.symm
        rw [if_congr hmem rfl rfl] at hrec
        have hne : (hashFn (normalizeBody x.body) == h) = false :=
          beq_eq_false_iff_ne.mpr hxh
        simp only [List.filter_cons, Bool.not_false, List.map_cons,
          List.countP_cons, hne, Bool.false_eq_true, if_false, if_true,
          Nat.add_zero]
        exact hrec

/-- C5: within one job, for every set of items whose normalized bodies
hash to the same value at most one item survives dedup tier 1; the
marking partitions the input (every non-survivor is marked
is_duplicate), and the downstream dedup output draws only from the
tier-1 survivors, so marked items are excluded from later stages. -/
theorem exact_dedup_at_most_one (env : PipelineEnv) (items : List Item)
    (h : Nat) :
    (exactSurvivors env.hashFn items).countP
        (fun it => env.hashFn (normalizeBody it.body) == h) ≤ 1 ∧
    ((exactMark env.hashFn items []).countP fun p => p.2)
        + (exactSurvivors env.hashFn items).length = items.length ∧
    (dedupStage env items).Sublist (exactSurvivors env.hashFn items) := by
  refine ⟨?_, ?_, nearDedup_sublist _ _ _ _⟩
  · simpa [exactSurvivors] using
      exactMark_survivors_countP_le env.hashFn h items []
  · have hlen := exactMark_length env.hashFn items []
    have hpart := length_eq_countP_add_countP_not
      (fun p : Item × Bool => p.2) (exactMark env.hashFn items [])
    have hsurv : (exactSurvivors env.hashFn items).length
        = (exactMark env.hashFn items []).countP fun p => !p.2 := by
      simp [exactSurvivors, ← List.countP_eq_length_filter]
    omega

/-- Both dedup tiers together only remove items. -/
theorem dedupStage_length_le (env : PipelineEnv) (items : List Item) :
    (dedupStage env items).length ≤ items.length := by
  calc (dedupStage env items).length
      ≤ (exactSurvivors env.hashFn items).length :=
        (nearDedup_sublist _ _ _ _).length_le
    _ ≤ (exactMark env.hashFn items []).length := by
        simpa [exactSurvivors] using
          List.length_filter_le (fun p : Item × Bool => !p.2)
            (exactMark env.hashFn items [])
    _ = items.length := exactMark_length _ _ _

/-! ## Clusterer lemmas -/

instance : IsRefl TopicCluster engDesc := ⟨fun a => le_refl a.total_engagement⟩

/-- Index assignment keeps the number of clusters. -/
theorem assignIdx_length :
    ∀ (i : Nat) (l : List TopicCluster),
      (assignIdx i l).length = l.length := by
  intro i l
  induction l generalizing i with
  | nil => simp [assignIdx]
  | cons c cs ih => simp [assignIdx, ih]

/-- Every cluster of the index assignment is a cluster of the input list
at the position its cluster_index records. -/
theorem mem_assignIdx {c : TopicCluster} :
    ∀ {i : Nat} {l : List TopicCluster}, c ∈ assignIdx i l →
      ∃ k, ∃ hk : k < l.length,
        c = { l.get ⟨k, hk⟩ with cluster_index := i + k } := by
  intro i l
  induction l generalizing i with
  | nil => intro hmem; simp [assignIdx] at hmem
  | cons c0 cs ih =>
    intro hmem
    rw [assignIdx, List.mem_cons] at hmem
    rcases hmem with rfl | hmem
    · exact ⟨0, Nat.succ_pos _, by simp⟩
    · obtain ⟨k, hk, hck⟩ := ih hmem
      exact ⟨k + 1, Nat.succ_lt_succ hk, by
        simpa [Nat.add_comm, Nat.add_assoc, Nat.add_left_comm] using hck⟩

/-- The pre-cap cluster list is sorted by descending total_engagement. -/
theorem sortedClusters_sorted (env : PipelineEnv)
    (groups : List (List Item)) :
    List.Sorted engDesc (sortedClusters env groups) :=
  List.sorted_insertionSort engDesc _

/-- C4: the Clusterer retains at most max_topics clusters, the retained
clusters all have total_engagement at least that of every cluster
dropped by the cap (highest engagement first, dropped before idea
generation), and every persisted job snapshot keeps total_clusters
within max_topics. -/
theorem cluster_cap (env : PipelineEnv) (maxTopics : Nat)
    (groups : List (List Item)) (kw formats : List String)
    (conn : List (Option (List RawItem))) (embedOk : Bool) :
    (clusterStage env maxTopics groups).length ≤ maxTopics ∧
    (∀ c ∈ clusterStage env maxTopics groups,
       ∀ d ∈ droppedClusters env maxTopics groups,
         d.total_engagement ≤ c.total_engagement) ∧
    (∀ s ∈ runJob env kw formats maxTopics conn embedOk,
       s.total_clusters ≤ maxTopics) := by
  refine ⟨?_, ?_, ?_⟩
  · rw [clusterStage, assignIdx_length]
    exact List.length_take_le _ _
  · intro c hc d hd
    obtain ⟨k, hk, rfl⟩ := mem_assignIdx hc
    have hctake : ((sortedClusters env groups).take maxTopics).get ⟨k, hk⟩
        ∈ (sortedClusters env groups).take maxTopics := List.get_mem _ _ _
    have hrel := (sortedClusters_sorted env groups).rel_of_mem_take_of_mem_drop
      hctake hd
    simpa [engDesc] using hrel
  · intro s hs
    simp only [runJob] at hs
    split at hs
    · simp only [List.mem_cons, List.not_mem_nil, or_false] at hs
      rcases hs with rfl | rfl | rfl <;> simp [initialJob]
    · split at hs
      · simp only [List.mem_cons, List.not_mem_nil, or_false] at hs
        rcases hs with rfl | rfl | rfl | rfl | rfl | rfl | rfl <;>
          simp [initialJob]
        all_goals
          rw [clusterStage, assignIdx_length]
          exact List.length_take_le _ _
      · simp only [List.mem_cons, List.not_mem_nil, or_false] at hs
        rcases hs with rfl | rfl | rfl | rfl | rfl <;> simp [initialJob]

/-- C6: within the persisted clusters of a job, a smaller cluster_index
means a total_engagement at least as large; cluster 0 carries the
highest total engagement. -/
theorem cluster_index_monotone (env : PipelineEnv) (maxTopics : Nat)
    (groups : List (List Item)) :
    ∀ c ∈ clusterStage env maxTopics groups,
      ∀ d ∈ clusterStage env maxTopics groups,
        c.cluster_index ≤ d.cluster_index →
        d.total_engagement ≤ c.total_engagement := by
  intro c hc d hd hle
  obtain ⟨kc, hkc, rfl⟩ := mem_assignIdx hc
  obtain ⟨kd, hkd, rfl⟩ := mem_assignIdx hd
  simp only [Nat.zero_add] at hle ⊢
  have hsorted : List.Sorted engDesc
      ((sortedClusters env groups).take maxTopics) :=
    (sortedClusters_sorted env groups).sublist (List.take_sublist _ _)
  have hrel := hsorted.rel_get_of_le (a := ⟨kc, hkc⟩) (b := ⟨kd, hkd⟩)
    (by simpa using hle)
  simpa [engDesc] using hrel

/-- Witness for C4: with a cap of one topic, the retained cluster (total
engagement six) dominates the dropped cluster (total engagement three). -/
theorem cluster_cap_witness :
    (⟨0, "topic", 3, 3⟩ : TopicCluster).total_engagement ≤
      (⟨0, "topic", 3, 6⟩ : TopicCluster).total_engagement :=
  (cluster_cap testEnv 1 [[itemA, itemA, itemA], [itemB, itemB, itemB]]
      [] [] [] true).2.1
    ⟨0, "topic", 3, 6⟩
    (by norm_num [clusterStage, sortedClusters, mkCluster, assignIdx,
      testEnv, List.insertionSort, List.orderedInsert, engDesc, itemA,
      itemB])
    ⟨0, "topic", 3, 3⟩
    (by norm_num [droppedClusters, sortedClusters, mkCluster, testEnv,
      List.insertionSort, List.orderedInsert, engDesc, itemA, itemB])

/-- Witness for C6: cluster 0 (total engagement six) dominates cluster 1
(total engagement three). -/
theorem cluster_index_monotone_witness :
    (⟨1, "topic", 3, 3⟩ : TopicCluster).total_engagement ≤
      (⟨0, "topic", 3, 6⟩ : TopicCluster).total_engagement :=
  cluster_index_monotone testEnv 2 [[itemA, itemA, itemA], [itemB, itemB, itemB]]
    ⟨0, "topic", 3, 6⟩
    (by norm_num [clusterStage, sortedClusters, mkCluster, assignIdx,
      testEnv, List.insertionSort, List.orderedInsert, engDesc, itemA,
      itemB])
    ⟨1, "topic", 3, 3⟩
    (by norm_num [clusterStage, sortedClusters, mkCluster, assignIdx,
      testEnv, List.insertionSort, List.orderedInsert, engDesc, itemA,
      itemB])
    (by decide)

/-! ## Counter-inequality lemmas -/

/-- Sums over sublists of naturals only shrink. -/
theorem sublist_sum_le {l1 l2 : List Nat} (h : l1.Sublist l2) :
    l1.sum ≤ l2.sum := by
  induction h with
  | slnil => exact le_refl _
  | cons a _ ih => simpa using le_trans ih (Nat.le_add_left _ _)
  | cons₂ a _ ih => simpa using ih

/-- Index assignment keeps every cluster size. -/
theorem assignIdx_map_size :
    ∀ (i : Nat) (l : List TopicCluster),
      (assignIdx i l).map TopicCluster.size = l.map TopicCluster.size := by
  intro i l
  induction l generalizing i with
  | nil => simp [assignIdx]
  | cons c cs ih => simp [assignIdx, ih]

/-- The sizes of the persisted clusters sum to at most the number of
items the grouping oracle distributed over all groups. -/
theorem sumSizes_clusterStage_le (env : PipelineEnv) (maxTopics : Nat)
    (groups : List (List Item)) :
    ((clusterStage env maxTopics groups).map TopicCluster.size).sum
      ≤ (groups.flatten).length := by
  rw [clusterStage, assignIdx_map_size]
  have htake : (((sortedClusters env groups).take maxTopics).map
        TopicCluster.size).sum
      ≤ ((sortedClusters env groups).map TopicCluster.size).sum :=
    sublist_sum_le (List.Sublist.map _ (List.take_sublist _ _))
  refine le_trans htake ?_
  have hperm : (sortedClusters env groups).Perm
      ((groups.filter fun g => decide (env.minClusterSize ≤ g.length)).map
        (mkCluster env.labelFn)) := List.perm_insertionSort _ _
  rw [List.Perm.sum_eq (hperm.map TopicCluster.size)]
  rw [List.map_map]
  have hmap : (TopicCluster.size ∘ mkCluster env.labelFn)
      = fun g : List Item => g.length := rfl
  rw [hmap]
  calc ((groups.filter fun g => decide (env.minClusterSize ≤ g.length)).map
          fun g : List Item => g.length).sum
      ≤ (groups.map fun g : List Item => g.length).sum :=
        sublist_sum_le (List.Sublist.map _ (List.filter_sublist _))
    _ = (groups.flatten).length := (List.length_flatten _).symm

/-- C3: at every snapshot an external observer can see, the counter
inequalities hold: total_filtered is at most total_raw, total_deduped is
at most total_filtered, and the sizes of the persisted TopicClusters of
the job sum to at most total_deduped.  The grouping oracle is assumed to
place each deduplicated item in at most one group. -/
theorem counter_inequalities (env : PipelineEnv) (kw formats : List String)
    (maxTopics : Nat) (conn : List (Option (List RawItem)))
    (embedOk : Bool)
    (hg : ∀ xs : List Item,
       ((env.groupFn xs).flatten : Multiset Item) ≤ (xs : Multiset Item)) :
    ∀ s ∈ runJob env kw formats maxTopics conn embedOk,
      s.total_filtered ≤ s.total_raw ∧
      s.total_deduped ≤ s.total_filtered ∧
      (s.clusters.map TopicCluster.size).sum ≤ s.total_deduped := by
  have hsum : ∀ xs : List Item,
      ((clusterStage env maxTopics (env.groupFn xs)).map
        TopicCluster.size).sum ≤ xs.length := by
    intro xs
    refine le_trans (sumSizes_clusterStage_le env maxTopics (env.groupFn xs)) ?_
    simpa using Multiset.card_le_card (hg xs)
  intro s hs
  simp only [runJob] at hs
  split at hs
  · simp only [List.mem_cons, List.not_mem_nil, or_false] at hs
    rcases hs with rfl | rfl | rfl <;> refine ⟨?_, ?_, ?_⟩ <;>
      simp [initialJob]
  · split at hs
    · simp only [List.mem_cons, List.not_mem_nil, or_false] at hs
      rcases hs with rfl | rfl | rfl | rfl | rfl | rfl | rfl <;>
        refine ⟨?_, ?_, ?_⟩ <;> dsimp only [initialJob] <;>
        first
        | exact Nat.zero_le _
        | exact Nat.le_refl _
        | exact filterStage_length_le _ _ _
        | exact dedupStage_length_le _ _
        | exact hsum _
    · simp only [List.mem_cons, List.not_mem_nil, or_false] at hs
      rcases hs with rfl | rfl | rfl | rfl | rfl <;>
        refine ⟨?_, ?_, ?_⟩ <;> dsimp only [initialJob] <;>
        first
        | exact Nat.zero_le _
        | exact Nat.le_refl _
        | exact filterStage_length_le _ _ _

/-- Witness for C3: the creation snapshot of a concrete run satisfies
the three inequalities. -/
theorem counter_inequalities_witness :
    initialJob.total_filtered ≤ initialJob.total_raw ∧
    initialJob.total_deduped ≤ initialJob.total_filtered ∧
    (initialJob.clusters.map TopicCluster.size).sum
      ≤ initialJob.total_deduped :=
  counter_inequalities testEnv [] [] 5 [some []] true
    (fun xs => by simp [testEnv]) initialJob (by simp [runJob])

/-! ## IdeaGenerator lemmas -/

/-- Summing a constant over a list. -/
theorem sum_map_const {α : Type} (l : List α) (n : Nat) :
    (l.map fun _ => n).sum = l.length * n := by
  induction l with
  | nil => simp
  | cons x xs ih => simp [ih, Nat.succ_mul]; omega

/-- Every attempted pair draws its cluster and its format from the job
configuration. -/
theorem mem_ideaAttempts {p : TopicCluster × String}
    {clusters : List TopicCluster} {formats : List String}
    (hp : p ∈ ideaAttempts clusters formats) :
    p.1 ∈ clusters ∧ p.2 ∈ formats := by
  simp only [ideaAttempts, List.mem_flatten, List.mem_map] at hp
  obtain ⟨l, ⟨c, hc, rfl⟩, hpl⟩ := hp
  obtain ⟨f, hf, rfl⟩ := List.mem_map.mp hpl
  exact ⟨hc, hf⟩

/-- Each retained cluster contributes each format exactly as often as the
format list holds it. -/
theorem ideaAttempts_count {c : TopicCluster} {f : String}
    (formats : List String) :
    ∀ clusters : List TopicCluster, clusters.Nodup → c ∈ clusters →
      (ideaAttempts clusters formats).count (c, f) = formats.count f := by
  intro clusters
  induction clusters with
  | nil => intro _ h; cases h
  | cons c0 cs ih =>
    intro hnd hmem
    have hsplit : ideaAttempts (c0 :: cs) formats
        = (formats.map fun f0 => (c0, f0)) ++ ideaAttempts cs formats := by
      simp [ideaAttempts]
    rw [hsplit, List.count_append]
    rcases List.mem_cons.mp hmem with rfl | hmem2
    · have h2 : (ideaAttempts cs formats).count (c, f) = 0 := by
        rw [List.count_eq_zero]
        intro hin
        exact (List.nodup_cons.mp hnd).1 (mem_ideaAttempts hin).1
      rw [h2, Nat.add_zero]
      clear hsplit hnd hmem ih h2
      induction formats with
      | nil => simp
      | cons f0 fs ihf =>
        simp only [List.map_cons, List.count_cons, ihf]
        by_cases hff : f0 = f <;> simp [hff, Prod.ext_iff]
    · have hc0 : c ≠ c0 := fun he =>
        (List.nodup_cons.mp hnd).1 (he ▸ hmem2)
      have h1 : ((formats.map fun f0 => (c0, f0)).count (c, f)) = 0 := by
        rw [List.count_eq_zero]
        intro hin
        obtain ⟨f0, _, heq⟩ := List.mem_map.mp hin
        exact hc0 (congrArg Prod.fst heq).symm
      rw [h1, Nat.zero_add]
      exact ih (List.nodup_cons.mp hnd).2 hmem2

/-- The persisted ideas are exactly the attempts whose generation call
succeeded. -/
theorem ideaStage_fst_length (gen : TopicCluster → String → Option String) :
    ∀ ps : List (TopicCluster × String),
      (ps.filterMap fun p =>
          (gen p.1 p.2).map fun txt =>
            ({ format_type := p.2, topic_label := p.1.label,
               generated_content := txt } : ContentIdea)).length
        = (ps.filter fun p => (gen p.1 p.2).isSome).length := by
  intro ps
  induction ps with
  | nil => simp
  | cons p ps ih =>
    cases hg : gen p.1 p.2 <;>
      simp [List.filterMap_cons, List.filter_cons, hg, ih]

/-- The failure notes are exactly the attempts whose generation call
failed permanently. -/
theorem ideaStage_snd_length (gen : TopicCluster → String → Option String) :
    ∀ ps : List (TopicCluster × String),
      (ps.filterMap fun p =>
          match gen p.1 p.2 with
          | none => some ("generation failed: " ++ p.1.label ++ " " ++ p.2)
          | some _ => none).length
        = (ps.filter fun p => (gen p.1 p.2).isNone).length := by
  intro ps
  induction ps with
  | nil => simp
  | cons p ps ih =>
    cases hg : gen p.1 p.2 <;>
      simp [List.filterMap_cons, List.filter_cons, hg, ih]

/-- C7: for a job with distinct retained clusters and distinct requested
formats, the IdeaGenerator attempts every cluster and format pair
exactly once, the persisted ideas (counted by total_ideas) are exactly
the successful attempts, and a failure note is recorded for exactly the
permanently failing attempts. -/
theorem idea_generation_exactly_once
    (gen : TopicCluster → String → Option String)
    (clusters : List TopicCluster) (formats : List String)
    (hc : clusters.Nodup) (hf : formats.Nodup) :
    (ideaAttempts clusters formats).length
      = clusters.length * formats.length ∧
    (∀ c ∈ clusters, ∀ f ∈ formats,
       (ideaAttempts clusters formats).count (c, f) = 1) ∧
    (ideaStage gen clusters formats).1.length
      = ((ideaAttempts clusters formats).filter
          fun p => (gen p.1 p.2).isSome).length ∧
    (ideaStage gen clusters formats).2.length
      = ((ideaAttempts clusters formats).filter
          fun p => (gen p.1 p.2).isNone).length := by
  refine ⟨?_, ?_, ?_, ?_⟩
  · rw [ideaAttempts, List.length_flatten, List.map_map]
    have hcomp : (List.length ∘ fun c : TopicCluster =>
        formats.map fun f => (c, f)) = fun _ : TopicCluster =>
          formats.length := by
      funext c; simp
    rw [hcomp, sum_map_const]
  · intro c hcm f hfm
    rw [ideaAttempts_count formats clusters hc hcm]
    exact List.count_eq_one_of_mem hf hfm
  · have hrw : (ideaStage gen clusters formats).1
        = (ideaAttempts clusters formats).filterMap fun p =>
            (gen p.1 p.2).map fun txt =>
              ({ format_type := p.2, topic_label := p.1.label,
                 generated_content := txt } : ContentIdea) := by
      simp only [ideaStage, List.filterMap_map]
      rfl
    rw [hrw]
    exact ideaStage_fst_length gen (ideaAttempts clusters formats)
  · have hrw : (ideaStage gen clusters formats).2
        = (ideaAttempts clusters formats).filterMap fun p =>
            match gen p.1 p.2 with
            | none => some ("generation failed: " ++ p.1.label ++ " " ++ p.2)
            | some _ => none := by
      simp only [ideaStage, List.filterMap_map]
      rfl
    rw [hrw]
    exact ideaStage_snd_length gen (ideaAttempts clusters formats)

/-- Witness for C7: one cluster and the two formats of the scenario give
the article attempt exactly once. -/
theorem idea_generation_exactly_once_witness :
    (ideaAttempts [(⟨0, "topic", 3, 6⟩ : TopicCluster)]
        ["article", "social_post"]).count
      (⟨0, "topic", 3, 6⟩, "article") = 1 :=
  (idea_generation_exactly_once testEnv.gen
      [⟨0, "topic", 3, 6⟩] ["article", "social_post"]
      (by simp) (by simp)).2.1
    ⟨0, "topic", 3, 6⟩ (by simp) "article" (by simp)

/-! ## JobOrchestrator state machine theorems -/

/-- Transfers a decidable property of a concrete status list back to the
mapped status list of a job trace. -/
theorem terminal_stable_of_map_eq (l : List Job) (sts : List String)
    (hmap : l.map Job.status = sts)
    (hdec : ∀ i j : Fin sts.length, i ≤ j →
      sts.get i ∈ (["completed", "failed"] : List String) →
      sts.get j = sts.get i) :
    ∀ i j : Fin (l.map Job.status).length, i ≤ j →
      (l.map Job.status).get i ∈ (["completed", "failed"] : List String) →
      (l.map Job.status).get j = (l.map Job.status).get i := by
  subst hmap
  exact hdec

/-- C1: every persisted status is one of the four wire values, a job is
created in pending, and a snapshot with a terminal status (completed or
failed) is never followed by a snapshot with a different status. -/
theorem status_state_machine (env : PipelineEnv) (kw formats : List String)
    (maxTopics : Nat) (conn : List (Option (List RawItem)))
    (embedOk : Bool) :
    ((runJob env kw formats maxTopics conn embedOk).map Job.status).head?
        = some "pending" ∧
    (∀ s ∈ runJob env kw formats maxTopics conn embedOk,
       s.status ∈
         (["pending", "running", "completed", "failed"] : List String)) ∧
    ∀ i j : Fin ((runJob env kw formats maxTopics conn
        embedOk).map Job.status).length,
      i ≤ j →
      ((runJob env kw formats maxTopics conn embedOk).map Job.status).get i
          ∈ (["completed", "failed"] : List String) →
      ((runJob env kw formats maxTopics conn embedOk).map Job.status).get j
        = ((runJob env kw formats maxTopics conn embedOk).map
            Job.status).get i := by
  by_cases hcon : (conn.all fun r => r.isNone) = true
  · have hmap : (runJob env kw formats maxTopics conn embedOk).map
        Job.status = ["pending", "running", "failed"] := by
      simp [runJob, hcon, initialJob]
    refine ⟨by rw [hmap]; rfl, ?_, ?_⟩
    · intro s hs
      have hm := List.mem_map_of_mem Job.status hs
      rw [hmap] at hm
      simp only [List.mem_cons, List.not_mem_nil, or_false] at hm ⊢
      tauto
    · exact terminal_stable_of_map_eq _ _ hmap (by decide)
  · by_cases hemb : embedOk = true
    · have hmap : (runJob env kw formats maxTopics conn embedOk).map
          Job.status = ["pending", "running", "running", "running",
            "running", "running", "completed"] := by
        simp [runJob, hcon, hemb, initialJob]
      refine ⟨by rw [hmap]; rfl, ?_, ?_⟩
      · intro s hs
        have hm := List.mem_map_of_mem Job.status hs
        rw [hmap] at hm
        simp only [List.mem_cons, List.not_mem_nil, or_false] at hm ⊢
        tauto
      · exact terminal_stable_of_map_eq _ _ hmap (by decide)
    · have hmap : (runJob env kw formats maxTopics conn embedOk).map
          Job.status = ["pending", "running", "running", "running",
            "failed"] := by
        simp [runJob, hcon, hemb, initialJob]
      refine ⟨by rw [hmap]; rfl, ?_, ?_⟩
      · intro s hs
        have hm := List.mem_map_of_mem Job.status hs
        rw [hmap] at hm
        simp only [List.mem_cons, List.not_mem_nil, or_false] at hm ⊢
        tauto
      · exact terminal_stable_of_map_eq _ _ hmap (by decide)

/-- Witness for C1: the creation snapshot of a concrete run carries one
of the four wire statuses. -/
theorem status_state_machine_witness :
    initialJob.status ∈
      (["pending", "running", "completed", "failed"] : List String) :=
  (status_state_machine testEnv [] [] 0 [none] true).2.1 initialJob
    (by simp [runJob])

set_option maxRecDepth 8192 in
/-- C2: along the sequence of snapshots an external poller can observe,
each of the five counters is monotonically non-decreasing: any earlier
snapshot is pointwise below any later one. -/
theorem counters_monotone (env : PipelineEnv) (kw formats : List String)
    (maxTopics : Nat) (conn : List (Option (List RawItem)))
    (embedOk : Bool) :
    ∀ i j : Fin (runJob env kw formats maxTopics conn embedOk).length,
      i ≤ j →
      JobLe ((runJob env kw formats maxTopics conn embedOk).get i)
        ((runJob env kw formats maxTopics conn embedOk).get j) := by
  have hpw : List.Pairwise JobLe
      (runJob env kw formats maxTopics conn embedOk) := by
    by_cases hcon : (conn.all fun r => r.isNone) = true
    · simp [runJob, hcon, List.pairwise_cons, JobLe, initialJob]
    · by_cases hemb : embedOk = true
      · simp [runJob, hcon, hemb, List.pairwise_cons, JobLe, initialJob]
      · simp [runJob, hcon, hemb, List.pairwise_cons, JobLe, initialJob]
  intro i j hij
  rcases eq_or_lt_of_le hij with heq | hlt
  · rw [heq]
    exact ⟨le_refl _, le_refl _, le_refl _, le_refl _, le_refl _⟩
  · have hg := List.pairwise_iff_getElem.mp hpw i.val j.val i.isLt j.isLt
      (Fin.lt_def.mp hlt)
    rw [List.get_eq_getElem, List.get_eq_getElem]
    exact hg

/-- Witness for C2: in a concrete run the creation snapshot is pointwise
below the running snapshot. -/
theorem counters_monotone_witness :
    JobLe ((runJob testEnv [] [] 0 [none] true).get ⟨0, by simp [runJob]⟩)
      ((runJob testEnv [] [] 0 [none] true).get ⟨1, by simp [runJob]⟩) :=
  counters_monotone testEnv [] [] 0 [none] true _ _
    (Fin.mk_le_mk.mpr (Nat.zero_le 1))

/-- C8: when every connector fails, the run ends failed with total_raw
zero and a non-empty error message; conversely a failed snapshot can
only arise from connector-stage total failure or embedding-service
unavailability, never from an individual generation failure. -/
theorem failed_only_on_fatal (env : PipelineEnv) (kw formats : List String)
    (maxTopics : Nat) (conn : List (Option (List RawItem)))
    (embedOk : Bool) :
    ((conn.all fun r => r.isNone) = true →
       (⟨"failed", 0, 0, 0, 0, 0,
         "all connectors failed: zero items ingested", []⟩ : Job)
         ∈ runJob env kw formats maxTopics conn embedOk) ∧
    (∀ s ∈ runJob env kw formats maxTopics conn embedOk,
       s.status = "failed" →
       (conn.all fun r => r.isNone) = true ∨ embedOk = false) := by
  constructor
  · intro hcon
    simp [runJob, hcon, initialJob]
  · intro s hs hfail
    by_cases hcon : (conn.all fun r => r.isNone) = true
    · exact Or.inl hcon
    · cases hemb : embedOk
      · exact Or.inr rfl
      · rw [hemb] at hs
        simp only [runJob, hcon, if_false, if_true, Bool.false_eq_true,
          eq_self_iff_true] at hs
        simp only [List.mem_cons, List.not_mem_nil, or_false] at hs
        rcases hs with rfl | rfl | rfl | rfl | rfl | rfl | rfl <;>
          simp [initialJob] at hfail

/-- Witness for C8: with a single failing connector the failed snapshot
is reached and the converse direction reports the connector failure. -/
theorem failed_only_on_fatal_witness :
    (([none] : List (Option (List RawItem))).all fun r => r.isNone) = true
      ∨ (true : Bool) = false :=
  (failed_only_on_fatal testEnv [] [] 0 [none] true).2
    ⟨"failed", 0, 0, 0, 0, 0,
      "all connectors failed: zero items ingested", []⟩
    ((failed_only_on_fatal testEnv [] [] 0 [none] true).1 (by simp)) rfl

end SellerContent
